import Mathlib

/- Verification of extracontext (hierarchical, call-scoped variable binding).

   Shallow embedding of:
   - src/extracontext/contextlocal.py  (PyContextLocal: explicit ancestry walk)
   - src/extracontext/contextlocal_native.py  (NativeContextLocal: contextvars)
   - src/extracontext/base.py  (backend selection)

   Values are parametric in a user type alpha; the deletion sentinel
   (the module-level object named sentinel in the source) is adjoined
   explicitly. -/

namespace Extracontext

/-- A value stored in a binding layer: either the engine-internal deletion
sentinel, or a user value. -/
inductive Val (α : Type) where
  | sentinel : Val α
  | user : α → Val α
deriving DecidableEq, Repr

/-- View of a stored value through attribute access: the sentinel reads as
absent (AttributeError in the source), a user value reads as itself. -/
def valView {α : Type} : Val α → Option α
  | Val.sentinel => none
  | Val.user a => some a

/-- Association-list lookup, modelling Python dict indexing/containment. -/
def alookup {β : Type} (k : String) : List (String × β) → Option β
  | [] => none
  | (k', v) :: rest => if k' = k then some v else alookup k rest

/-- Association-list assignment, modelling Python dict item assignment
(overwrite in place, else append). -/
def ainsert {β : Type} (k : String) (v : β) : List (String × β) → List (String × β)
  | [] => [(k, v)]
  | (k', v') :: rest => if k' = k then (k, v) :: rest else (k', v') :: ainsert k v rest

/-- One binding layer: the namespace dict pushed by register-context.  The
source keeps the tombstone record in-band under the reserved key starting
with a dollar sign (inaccessible through attribute syntax and filtered out
of enumeration); here it is the separate field deleted. -/
structure Namespace (α : Type) where
  vals : List (String × Val α)
  deleted : List String
deriving DecidableEq, Repr

/-- Does a layer answer for a lookup?  With no name given every layer
answers (used by assignment); with a name, dict containment is tested,
which includes sentinel-valued entries. -/
def nsMatch {α : Type} : Option String → Namespace α → Bool
  | none, _ => true
  | some k, ns => (alookup k ns.vals).isSome

/-- One execution frame as seen by one PyContextLocal instance: stack is
some layers exactly when the frame id is a key of the registry, the head
being the most recently registered layer (the source stores indices into
the frame-locals context list and iterates them reversed). -/
structure Frame (α : Type) where
  stack : Option (List (Namespace α))
deriving DecidableEq, Repr

/-- The dynamic ancestry at the current execution point: frames nearest
first, as walked through the back links by the introspection loop. -/
abbrev PyState (α : Type) := List (Frame α)

/-- In-place update of the n-th element of a list. -/
def listUpd {β : Type} : List β → Nat → (β → β) → List β
  | [], _, _ => []
  | x :: xs, 0, g => g x :: xs
  | x :: xs, n + 1, g => x :: listUpd xs n g

namespace PyContextLocal

/-- Search one registered stack of layers, most recent first; returns the
depth of the first layer that answers for the lookup. -/
def stackFindNs {α : Type} (name : Option String) : List (Namespace α) → Option Nat
  | [] => none
  | ns :: rest =>
    if nsMatch name ns then some 0 else (stackFindNs name rest).map (· + 1)

/-- The resolution walk of the introspection routine: frames nearest first,
unregistered frames skipped, within a registered frame the stack searched
most recent first; returns the (frame, depth) position of the winning
layer.  The distance pair the source also returns is used only to test
whether the winning layer is the first one in walk order, which here is
the equality of this position with the position an unfiltered walk finds. -/
def framesFindNs {α : Type} (name : Option String) : PyState α → Option (Nat × Nat)
  | [] => none
  | f :: rest =>
    match f.stack with
    | none => (framesFindNs name rest).map (fun q => (q.1 + 1, q.2))
    | some stk =>
      match stackFindNs name stk with
      | some d => some (0, d)
      | none => (framesFindNs name rest).map (fun q => (q.1 + 1, q.2))

/-- The layer at a walk position. -/
def nsAt {α : Type} (s : PyState α) (p : Nat × Nat) : Option (Namespace α) :=
  match s.get? p.1 with
  | none => none
  | some f => (f.stack.getD []).get? p.2

/-- Mutate the layer at a walk position in place. -/
def updateNs {α : Type} (s : PyState α) (p : Nat × Nat) (g : Namespace α → Namespace α) :
    PyState α :=
  listUpd s p.1 (fun f => { f with stack := f.stack.map (fun stk => listUpd stk p.2 g) })

/-- register-context: push a fresh empty layer for this frame (creating
the registry entry and the frame-locals context list as needed). -/
def registerFrame {α : Type} (f : Frame α) : Frame α :=
  ⟨some (⟨[], []⟩ :: f.stack.getD [])⟩

/-- Attribute read: resolve by name, then fail on the sentinel. -/
def getattr {α : Type} (s : PyState α) (name : String) : Option α :=
  match framesFindNs (some name) s with
  | none => none
  | some p =>
    match nsAt s p with
    | none => none
    | some ns =>
      match alookup name ns.vals with
      | some w => valView w
      | none => none

/-- Attribute write: resolve the nearest layer of any kind and assign
there; when no layer exists anywhere (the internal no-active-scope
signal), register a fresh layer on the immediate frame and retry. -/
def setattr {α : Type} (s : PyState α) (name : String) (v : Val α) : PyState α :=
  match framesFindNs none s with
  | some p => updateNs s p (fun ns => { ns with vals := ainsert name v ns.vals })
  | none =>
    let s' := listUpd s 0 registerFrame
    match framesFindNs none s' with
    | some p => updateNs s' p (fun ns => { ns with vals := ainsert name v ns.vals })
    | none => s'

/-- Attribute deletion.  The source compares the two distances returned by
introspection; they agree exactly when the layer found for the name is the
first layer in walk order, i.e. the position the unfiltered walk returns. -/
def delattr {α : Type} (s : PyState α) (name : String) : Option (PyState α) :=
  match framesFindNs (some name) s with
  | none => none
  | some p =>
    if framesFindNs none s = some p then
      match (nsAt s p).bind (fun ns => alookup name ns.vals) with
      | some (Val.user _) =>
        if name ∈ (((nsAt s p).map Namespace.deleted).getD []) then
          some (setattr s name Val.sentinel)
        else
          let s' := updateNs s p (fun ns => { ns with deleted := name :: ns.deleted })
          some (setattr s' name Val.sentinel)
      | _ => none
    else
      let s' := setattr s name Val.sentinel
      some (updateNs s' p (fun ns => { ns with deleted := name :: ns.deleted }))

/-- The frame the decorator wrapper contributes: it registers one fresh
layer on its own frame before invoking the wrapped callable. -/
def scopeFrame (α : Type) : Frame α := ⟨some [⟨[], []⟩]⟩

/-- Entering a decorated call: a new frame carrying one fresh registered
layer becomes the nearest ancestor. -/
def enterScope {α : Type} (s : PyState α) : PyState α := scopeFrame α :: s

/-- Returning from a decorated call: the wrapper frame is discarded and
its registry entry deleted. -/
def exitScope {α : Type} (s : PyState α) : PyState α := s.tail

/-- Entering a with block: register a fresh layer on the current frame. -/
def enterWith {α : Type} (s : PyState α) : PyState α := listUpd s 0 registerFrame

/-- The handoff the decorator performs when the wrapped callable returns a
generator: a fresh layer is registered on the generator frame itself, so
the frame persists across resumptions and carries its own layer. -/
def genHandle (α : Type) : Frame α := scopeFrame α

/-- One resumption step of a generator: its own frame, with its registered
layer, runs as the nearest ancestor of the driving scope for the duration
of the step only. -/
def genStep {α β : Type} (g : Frame α) (d : PyState α)
    (body : PyState α → PyState α × β) : Frame α × PyState α × β :=
  let r := body (g :: d)
  (r.1.headD g, r.1.tail, r.2)

/-- The enumeration loop of the dir method: starting from each successive
frame, resolve the nearest layer of any kind and collect it, stopping when
the walk finds nothing or runs out of frames.  The second argument is a
step budget equal to the number of remaining frames, a pure termination
device: when it reaches zero the start index is already past the last
frame and the loop would stop anyway. -/
def dirLoop {α : Type} (s : PyState α) : Nat → Nat → List (Namespace α)
  | _, 0 => []
  | j, fuel + 1 =>
    if j < s.length then
      match framesFindNs none (s.drop j) with
      | none => []
      | some p =>
        match nsAt (s.drop j) p with
        | none => []
        | some ns => ns :: dirLoop s (j + 1) fuel
    else []

/-- The layers the dir method visits. -/
def dirCollect {α : Type} (s : PyState α) : List (Namespace α) := dirLoop s 0 s.length

/-- Codepoint-lexicographic string comparison, as the host sort uses. -/
def charsLe : List Char → List Char → Bool
  | [], _ => true
  | _ :: _, [] => false
  | a :: as, b :: bs => if a = b then charsLe as bs else decide (a.toNat < b.toNat)

/-- String comparison on the character data. -/
def strLe (a b : String) : Bool := charsLe a.data b.data

/-- Ascending insertion of a string into a sorted list. -/
def strInsert (x : String) : List String → List String
  | [] => [x]
  | y :: ys => if strLe x y then x :: y :: ys else y :: strInsert x ys

/-- The deterministic ascending sort the dir method applies last. -/
def strSort : List String → List String
  | [] => []
  | x :: xs => strInsert x (strSort xs)

/-- The dir method: keys of the collected layers whose stored value is not
the sentinel, then only those an attribute read resolves, sorted. -/
def dirAttrs {α : Type} (s : PyState α) : List String :=
  let nss := dirCollect s
  let raw := nss.foldr
    (fun ns acc =>
      (ns.vals.filterMap (fun kv => if (valView kv.2).isSome then some kv.1 else none)) ++ acc)
    []
  strSort (raw.dedup.filter (fun k => (getattr s k).isSome))

end PyContextLocal

namespace NativeContextLocal

/-- Character-level test that the first list starts the second. -/
def prefixChars : List Char → List Char → Bool
  | [], _ => true
  | _ :: _, [] => false
  | a :: as, b :: bs => if a = b then prefixChars as bs else false

/-- Names with the reserved engine-internal prefix are kept on the
instance itself instead of being namespaced context variables. -/
def isReserved (name : String) : Bool := prefixChars "_et_".data name.data

/-- State of one NativeContextLocal namespace as observed at one execution
point: the instance dict (shared by every scope, thread and task), the set
of names for which a context variable has been created (this registry dict
is likewise shared), and the value each variable holds in the current
contextvars context. -/
structure NState (α : Type) where
  instanceAttrs : List (String × Val α)
  registry : List String
  ctx : List (String × Val α)
deriving DecidableEq, Repr

/-- Creating the context variable for a name on first assignment. -/
def regAdd (name : String) (reg : List String) : List String :=
  if name ∈ reg then reg else reg ++ [name]

/-- Attribute write: reserved names go straight to the instance dict; any
other name gets (or creates) its context variable and sets it in the
current context. -/
def nSetattr {α : Type} (s : NState α) (name : String) (v : Val α) : NState α :=
  if isReserved name then { s with instanceAttrs := ainsert name v s.instanceAttrs }
  else { s with registry := regAdd name s.registry, ctx := ainsert name v s.ctx }

/-- Attribute read: the normal attribute protocol finds instance
attributes first; only on failure does the fallback consult the registry
and the current context, where an absent variable, an unset variable and
the sentinel all read as absent. -/
def nGetattr {α : Type} (s : NState α) (name : String) : Option (Val α) :=
  match alookup name s.instanceAttrs with
  | some v => some v
  | none =>
    if name ∈ s.registry then
      match alookup name s.ctx with
      | some (Val.user a) => some (Val.user a)
      | _ => none
    else none

/-- Attribute deletion: fails unless the name currently reads as a user
value, then assigns the sentinel. -/
def nDelattr {α : Type} (s : NState α) (name : String) : Option (NState α) :=
  match nGetattr s name with
  | some (Val.user _) => some (nSetattr s name Val.sentinel)
  | _ => none

/-- The run method (and the decorator built on it): the body runs inside a
copy of the current context; instance and registry mutations are shared,
while context mutations made by the body stay in the discarded copy. -/
def nRun {α β : Type} (s : NState α) (body : NState α → NState α × β) : NState α × β :=
  let r := body s
  ({ r.1 with ctx := s.ctx }, r.2)

/-- The context copy taken when the decorated callable returns a
generator: it persists for the lifetime of the generator handle. -/
structure NGen (α : Type) where
  ctx : List (String × Val α)
deriving DecidableEq, Repr

/-- Generator creation inside the run method: the fresh context copy
becomes the handle state. -/
def nGenHandle {α : Type} (s : NState α) : NGen α := ⟨s.ctx⟩

/-- One resumption step of a wrapped generator: the step runs inside the
handle context copy (which it may mutate persistently); the driving
context is untouched, while instance and registry stay shared. -/
def nGenStep {α β : Type} (g : NGen α) (s : NState α)
    (body : NState α → NState α × β) : NGen α × NState α × β :=
  let r := body { s with ctx := g.ctx }
  (⟨r.1.ctx⟩, { r.1 with ctx := s.ctx }, r.2)

end NativeContextLocal

namespace ContextLocalBase

/-- The two binding engines of the package. -/
inductive Engine where
  | python : Engine
  | native : Engine
deriving DecidableEq, Repr

/-- The backend registry that init-subclass fills: each concrete subclass
under its backend key attribute. -/
def backendRegistry : List (String × Engine) :=
  [("python", Engine.python), ("native", Engine.native)]

/-- The routing step of construction, the new method of the base class
only: a missing backend argument defaults to the native key, then the
registry is indexed (a KeyError, modelled as none, escapes for an unknown
key).  Routing alone does not produce a usable namespace; the initializer
of the routed class still has to run, which constructContextLocal models. -/
def newContextLocal (backend : Option String) : Option Engine :=
  alookup (backend.getD "native") backendRegistry

/-- A successfully constructed namespace: the explicit engine initializer
only installs a fresh empty weak registry (the ambient frame chain is the
rest of its state), while a native one would carry its instance state. -/
inductive Built (α : Type) where
  | python : Built α
  | native : NativeContextLocal.NState α → Built α
deriving DecidableEq

/-- The attribute load of the reserved registry attribute on a native
namespace instance, as the attribute protocol performs it: found among the
names the instance dict holds, it succeeds; otherwise the getattr fallback
runs, whose first action is this very load again.  The counter bounds the
nested protocol entries; exhausting it models the recursion limit fault
the host raises. -/
def etRegistryLoad (instNames : List String) : Nat → Option Unit
  | 0 => none
  | fuel + 1 =>
    if "_et_registry" ∈ instNames then some () else etRegistryLoad instNames fuel

/-- The native initializer: its first statement subscripts the reserved
registry attribute before anything has been stored on the instance, so it
performs the load above with an empty instance dict; only if that load
returned would the initializer go on to install the fresh instance state. -/
def nativeConstruct (α : Type) (fuel : Nat) : Option (NativeContextLocal.NState α) :=
  match etRegistryLoad [] fuel with
  | none => none
  | some _ => some ⟨[], [], []⟩

/-- Full construction of a namespace: the routing step picks the engine
class (none for an unknown key), then that class initializer runs: the
explicit engine initializer succeeds, the native one faults as above. -/
def constructContextLocal (α : Type) (backend : Option String) (fuel : Nat) :
    Option (Built α) :=
  match newContextLocal backend with
  | none => none
  | some Engine.python => some Built.python
  | some Engine.native =>
    match nativeConstruct α fuel with
    | none => none
    | some n => some (Built.native n)

end ContextLocalBase

/- General lemmas about the explicit (python backend) engine. -/

open PyContextLocal NativeContextLocal ContextLocalBase

theorem alookup_ainsert {β : Type} (k : String) (w : β) (l : List (String × β)) :
    alookup k (ainsert k w l) = some w := by
  induction l with
  | nil => simp [ainsert, alookup]
  | cons kv rest ih =>
    by_cases h : kv.1 = k
    · simp [ainsert, alookup, h]
    · simp [ainsert, alookup, h, ih]

theorem getattr_head {α : Type} (ns : Namespace α) (stk : List (Namespace α))
    (rest : PyState α) (k : String) (w : Val α) (hw : alookup k ns.vals = some w) :
    getattr (⟨some (ns :: stk)⟩ :: rest) k = valView w := by
  have hm : nsMatch (some k) ns = true := by simp [nsMatch, hw]
  simp [getattr, framesFindNs, stackFindNs, hm, nsAt, hw]

theorem setattr_head {α : Type} (ns : Namespace α) (stk : List (Namespace α))
    (rest : PyState α) (k : String) (w : Val α) :
    setattr (⟨some (ns :: stk)⟩ :: rest) k w
      = ⟨some ({ ns with vals := ainsert k w ns.vals } :: stk)⟩ :: rest := by
  simp [setattr, framesFindNs, stackFindNs, nsMatch, updateNs, listUpd]

theorem getattr_skip_none {α : Type} (f : Frame α) (hf : f.stack = none)
    (rest : PyState α) (k : String) : getattr (f :: rest) k = getattr rest k := by
  cases hr : framesFindNs (some k) rest with
  | none => simp [getattr, framesFindNs, hf, hr]
  | some q => simp [getattr, framesFindNs, hf, hr, nsAt]

theorem getattr_skip_nil {α : Type} (f : Frame α) (hf : f.stack = some [])
    (rest : PyState α) (k : String) : getattr (f :: rest) k = getattr rest k := by
  cases hr : framesFindNs (some k) rest with
  | none => simp [getattr, framesFindNs, stackFindNs, hf, hr]
  | some q => simp [getattr, framesFindNs, stackFindNs, hf, hr, nsAt]

theorem updateNs_cons_succ {α : Type} (f : Frame α) (rest : PyState α)
    (i d : Nat) (g : Namespace α → Namespace α) :
    updateNs (f :: rest) (i + 1, d) g = f :: updateNs rest (i, d) g := rfl

theorem upd_get {α : Type} :
    ∀ (s : PyState α) (p : Nat × Nat) (k : String) (w : Val α),
      framesFindNs none s = some p →
      getattr (updateNs s p (fun ns => { ns with vals := ainsert k w ns.vals })) k
        = valView w := by
  intro s
  induction s with
  | nil => intro p k w h; simp [framesFindNs] at h
  | cons f rest ih =>
    intro p k w h
    cases hf : f.stack with
    | none =>
      simp only [framesFindNs, hf, Option.map_eq_some'] at h
      obtain ⟨q, hq, hpq⟩ := h
      subst hpq
      rw [updateNs_cons_succ, getattr_skip_none f hf]
      exact ih q k w hq
    | some stk =>
      cases stk with
      | nil =>
        simp only [framesFindNs, hf, stackFindNs, Option.map_eq_some'] at h
        obtain ⟨q, hq, hpq⟩ := h
        subst hpq
        rw [updateNs_cons_succ, getattr_skip_nil f hf]
        exact ih q k w hq
      | cons ns stk' =>
        have hm : nsMatch (none : Option String) ns = true := rfl
        simp only [framesFindNs, hf, stackFindNs, hm, if_true, Option.some.injEq] at h
        subst h
        have : updateNs (f :: rest) (0, 0)
            (fun ns => { ns with vals := ainsert k w ns.vals })
            = ⟨some ({ ns with vals := ainsert k w ns.vals } :: stk')⟩ :: rest := by
          simp [updateNs, listUpd, hf]
        rw [this]
        exact getattr_head _ _ _ _ _ (alookup_ainsert k w ns.vals)

theorem setattr_noScope {α : Type} (f : Frame α) (rest : PyState α) (k : String)
    (w : Val α) (h : framesFindNs none (f :: rest) = none) :
    setattr (f :: rest) k w
      = ⟨some (⟨[(k, w)], []⟩ :: f.stack.getD [])⟩ :: rest := by
  have hfind : framesFindNs none
      ((⟨some (⟨[], []⟩ :: f.stack.getD [])⟩ : Frame α) :: rest) = some (0, 0) := by
    simp [framesFindNs, stackFindNs, nsMatch]
  simp only [setattr, h, listUpd, registerFrame]
  rw [hfind]
  simp [updateNs, listUpd, ainsert]

theorem set_get_val {α : Type} (s : PyState α) (k : String) (w : Val α)
    (hs : s ≠ []) : getattr (setattr s k w) k = valView w := by
  cases h : framesFindNs none s with
  | some p =>
    have : setattr s k w
        = updateNs s p (fun ns => { ns with vals := ainsert k w ns.vals }) := by
      simp [setattr, h]
    rw [this]
    exact upd_get s p k w h
  | none =>
    cases s with
    | nil => exact absurd rfl hs
    | cons f rest =>
      rw [setattr_noScope f rest k w h]
      exact getattr_head _ _ _ _ _ (by simp [alookup])

theorem set_get_user {α : Type} (s : PyState α) (k : String) (v : α)
    (hs : s ≠ []) : getattr (setattr s k (Val.user v)) k = some v :=
  set_get_val s k (Val.user v) hs

theorem setattr_scope_head {α : Type} (s : PyState α) (k : String) (w : Val α) :
    setattr (enterScope s) k w = ⟨some [⟨[(k, w)], []⟩]⟩ :: s := by
  have := setattr_head (⟨[], []⟩ : Namespace α) [] s k w
  simpa [enterScope, scopeFrame, ainsert] using this

theorem delattr_fresh_head {α : Type} (k : String) (b : α) (rest : PyState α) :
    delattr (⟨some [⟨[(k, Val.user b)], []⟩]⟩ :: rest) k
      = some (⟨some [⟨[(k, Val.sentinel)], [k]⟩]⟩ :: rest) := by
  simp [delattr, framesFindNs, stackFindNs, nsMatch, alookup, nsAt, updateNs, listUpd,
    setattr, ainsert]

theorem delattr_shadowed_head {α : Type} (k : String) (d : List String)
    (rest : PyState α) :
    delattr (⟨some [⟨[(k, Val.sentinel)], d⟩]⟩ :: rest) k = none := by
  simp [delattr, framesFindNs, stackFindNs, nsMatch, alookup, nsAt]

theorem delattr_redeleted_head {α : Type} (k : String) (c : α) (rest : PyState α) :
    delattr (⟨some [⟨[(k, Val.user c)], [k]⟩]⟩ :: rest) k
      = some (⟨some [⟨[(k, Val.sentinel)], [k]⟩]⟩ :: rest) := by
  simp [delattr, framesFindNs, stackFindNs, nsMatch, alookup, nsAt, updateNs, listUpd,
    setattr, ainsert]

/- General lemmas about the native engine. -/

theorem mem_regAdd (name : String) (reg : List String) : name ∈ regAdd name reg := by
  by_cases h : name ∈ reg
  · simp [regAdd, h]
  · simp [regAdd, h]

theorem nSet_get {α : Type} (s : NState α) (k : String) (v : α)
    (hk : isReserved k = true ∨ alookup k s.instanceAttrs = none) :
    nGetattr (nSetattr s k (Val.user v)) k = some (Val.user v) := by
  by_cases hr : isReserved k
  · simp [nSetattr, hr, nGetattr, alookup_ainsert]
  · have hi : alookup k s.instanceAttrs = none := by
      rcases hk with h | h
      · exact absurd h (by simpa using hr)
      · exact h
    simp [nSetattr, hr, nGetattr, hi, mem_regAdd, alookup_ainsert]

theorem etRegistryLoad_nil (fuel : Nat) : etRegistryLoad [] fuel = none := by
  induction fuel with
  | zero => rfl
  | succ n ih => simp [etRegistryLoad, ih]

theorem nativeConstruct_fails (α : Type) (fuel : Nat) : nativeConstruct α fuel = none := by
  simp [nativeConstruct, etRegistryLoad_nil]

theorem constructNative_fails (α : Type) (b : Option String) (fuel : Nat)
    (hb : newContextLocal b = some Engine.native) :
    constructContextLocal α b fuel = none := by
  simp [constructContextLocal, hb, nativeConstruct_fails]

/- Concrete scenario states used as counterexample and failing inputs. -/

/-- The frame chain at import time: one live frame, nothing registered. -/
def pyRoot : PyState Nat := [⟨none⟩]

/-- Outer scope with K bound to 1 (implicit root layer). -/
def pyC2outer : PyState Nat := setattr pyRoot "K" (Val.user 1)

/-- A nested decorated scope that assigned its own K to 2. -/
def pyC2nested : PyState Nat := setattr (enterScope pyC2outer) "K" (Val.user 2)

/- Claims. -/

/-- C1: on either backend, performing set(K, v) and then immediately get(K)
in the same scope returns v.  Explicit engine: for every frame chain with
at least one live frame.  Native engine: for every state in which a
non-reserved K is not preempted by an instance attribute (only reserved
names ever live there). -/
theorem spec_c1 (α : Type) (s : PyState α) (K : String) (v : α) (hs : s ≠ [])
    (n : NState α) (M : String) (w : α)
    (hM : isReserved M = true ∨ alookup M n.instanceAttrs = none) :
    getattr (setattr s K (Val.user v)) K = some v ∧
    nGetattr (nSetattr n M (Val.user w)) M = some (Val.user w) :=
  ⟨set_get_user s K v hs, nSet_get n M w hM⟩

/-- Witness for C1 at a concrete input. -/
theorem spec_c1_w :
    (([⟨none⟩] : PyState Nat) ≠ []) ∧
    (isReserved "x" = true ∨
      alookup "x" (NState.instanceAttrs (⟨[], [], []⟩ : NState Nat)) = none) ∧
    (getattr (setattr ([⟨none⟩] : PyState Nat) "k" (Val.user 7)) "k" = some 7 ∧
     nGetattr (nSetattr (⟨[], [], []⟩ : NState Nat) "x" (Val.user 3)) "x"
        = some (Val.user 3)) :=
  ⟨by decide, by decide, spec_c1 Nat [⟨none⟩] "k" 7 (by decide) ⟨[], [], []⟩ "x" 3 (by decide)⟩

/-- C2 counterexample: outer K=1, nested scope set K=2 then deleted K; the
claim says get(K) now returns the outer value 1, but the engine tombstones
the nested entry (the untaken restore path is commented out in the source)
and get(K) fails. -/
theorem spec_c2_cex :
    (delattr pyC2nested "K").map (fun t => getattr t "K") = some none ∧
    (delattr pyC2nested "K").map (fun t => getattr t "K") ≠ some (some 1) := by
  decide

/-- C2 amended: outer bound K; a nested scope assigned its own K; a first
delete(K) in the nested scope tombstones the nested entry so get(K) fails
with NotBound (the outer value does not become visible); a second
delete(K) in the same nested scope fails with NotBound; the outer scope
still reads its original value after the nested scope exits. -/
theorem spec_c2_amended (α : Type) (p : PyState α) (K : String) (a b : α)
    (hp : p ≠ []) :
    ∃ s4, delattr (setattr (enterScope (setattr p K (Val.user a))) K (Val.user b)) K
        = some s4 ∧
      getattr s4 K = none ∧
      delattr s4 K = none ∧
      getattr (exitScope s4) K = some a := by
  rw [setattr_scope_head]
  refine ⟨_, delattr_fresh_head K b _, ?_, delattr_shadowed_head K _ _, ?_⟩
  · have := getattr_head (⟨[(K, Val.sentinel)], [K]⟩ : Namespace α) []
      (setattr p K (Val.user a)) K Val.sentinel (by simp [alookup])
    simpa [valView] using this
  · simpa [exitScope] using set_get_user p K a hp

/-- Witness for the amended C2 at a concrete input. -/
theorem spec_c2_amended_w :
    (([⟨none⟩] : PyState Nat) ≠ []) ∧
    (∃ s4, delattr (setattr (enterScope (setattr ([⟨none⟩] : PyState Nat) "K"
            (Val.user 1))) "K" (Val.user 2)) "K" = some s4 ∧
      getattr s4 "K" = none ∧
      delattr s4 "K" = none ∧
      getattr (exitScope s4) "K" = some 1) :=
  ⟨by decide, spec_c2_amended Nat [⟨none⟩] "K" 1 2 (by decide)⟩

/-- C3: outer sets K=a, a nested scope sets K=b and reads b; the nested
assignment lands in the nested layer only (the enclosing chain is exactly
the old one), and after exit the outer scope reads a again.  Also for the
native engine via its isolated-context run. -/
theorem spec_c3 (α : Type) (p : PyState α) (K : String) (a b : α) (hp : p ≠ [])
    (n0 : NState α) (M : String) (u v : α) (hM : isReserved M = false)
    (hI : alookup M n0.instanceAttrs = none) :
    (getattr (setattr p K (Val.user a)) K = some a ∧
     getattr (setattr (enterScope (setattr p K (Val.user a))) K (Val.user b)) K = some b ∧
     (setattr (enterScope (setattr p K (Val.user a))) K (Val.user b)).tail
        = setattr p K (Val.user a) ∧
     getattr (exitScope (setattr (enterScope (setattr p K (Val.user a))) K (Val.user b))) K
        = some a) ∧
    (let n1 := nSetattr n0 M (Val.user u)
     let r := nRun n1 (fun m => (nSetattr m M (Val.user v),
        nGetattr (nSetattr m M (Val.user v)) M))
     r.2 = some (Val.user v) ∧ (r.1).ctx = n1.ctx ∧ nGetattr r.1 M = some (Val.user u)) := by
  constructor
  · refine ⟨set_get_user p K a hp, ?_, ?_, ?_⟩
    · rw [setattr_scope_head]
      simpa [valView] using getattr_head (⟨[(K, Val.user b)], []⟩ : Namespace α) []
        (setattr p K (Val.user a)) K (Val.user b) (by simp [alookup])
    · rw [setattr_scope_head]
      rfl
    · rw [setattr_scope_head]
      simpa [exitScope] using set_get_user p K a hp
  · refine ⟨?_, rfl, ?_⟩
    · have hi1 : alookup M (nSetattr n0 M (Val.user u)).instanceAttrs = none := by
        simp [nSetattr, hM, hI]
      exact nSet_get _ M v (Or.inr hi1)
    · simp [nRun, nSetattr, hM, nGetattr, hI, mem_regAdd, alookup_ainsert]

/-- Witness for C3 at a concrete input. -/
theorem spec_c3_w :
    (([⟨none⟩] : PyState Nat) ≠ []) ∧ (isReserved "m" = false) ∧
    (alookup "m" (NState.instanceAttrs (⟨[], [], []⟩ : NState Nat)) = none) ∧
    ((getattr (setattr ([⟨none⟩] : PyState Nat) "K" (Val.user 1)) "K" = some 1 ∧
      getattr (setattr (enterScope (setattr ([⟨none⟩] : PyState Nat) "K" (Val.user 1)))
          "K" (Val.user 2)) "K" = some 2 ∧
      (setattr (enterScope (setattr ([⟨none⟩] : PyState Nat) "K" (Val.user 1)))
          "K" (Val.user 2)).tail = setattr ([⟨none⟩] : PyState Nat) "K" (Val.user 1) ∧
      getattr (exitScope (setattr (enterScope (setattr ([⟨none⟩] : PyState Nat) "K"
          (Val.user 1))) "K" (Val.user 2))) "K" = some 1) ∧
     (let n1 := nSetattr (⟨[], [], []⟩ : NState Nat) "m" (Val.user 1)
      let r := nRun n1 (fun m => (nSetattr m "m" (Val.user 2),
          nGetattr (nSetattr m "m" (Val.user 2)) "m"))
      r.2 = some (Val.user 2) ∧ (r.1).ctx = n1.ctx ∧
        nGetattr r.1 "m" = some (Val.user 1))) :=
  ⟨by decide, by decide, by decide,
    spec_c3 Nat [⟨none⟩] "K" 1 2 (by decide) ⟨[], [], []⟩ "m" 1 2 (by decide) (by decide)⟩

/-- C4: continuing after the first delete in the nested scope, assigning
K=c makes get(K) return c; a second delete then makes get(K) fail again,
the outer value staying invisible inside the nested scope; the outer scope
reads a after exit. -/
theorem spec_c4 (α : Type) (p : PyState α) (K : String) (a b c : α) (hp : p ≠ []) :
    ∃ s4, delattr (setattr (enterScope (setattr p K (Val.user a))) K (Val.user b)) K
        = some s4 ∧
      getattr (setattr s4 K (Val.user c)) K = some c ∧
      (∃ s6, delattr (setattr s4 K (Val.user c)) K = some s6 ∧
        getattr s6 K = none ∧
        getattr (exitScope s6) K = some a) := by
  rw [setattr_scope_head]
  refine ⟨_, delattr_fresh_head K b _, ?_, ?_⟩
  · rw [setattr_head]
    simpa [valView, ainsert] using getattr_head (⟨[(K, Val.user c)], [K]⟩ : Namespace α) []
      (setattr p K (Val.user a)) K (Val.user c) (by simp [alookup])
  · rw [setattr_head]
    have hred := delattr_redeleted_head K c (setattr p K (Val.user a))
    refine ⟨_, by simpa [ainsert] using hred, ?_, ?_⟩
    · simpa [valView] using getattr_head (⟨[(K, Val.sentinel)], [K]⟩ : Namespace α) []
        (setattr p K (Val.user a)) K Val.sentinel (by simp [alookup])
    · simpa [exitScope] using set_get_user p K a hp

/-- Witness for C4 at a concrete input. -/
theorem spec_c4_w :
    (([⟨none⟩] : PyState Nat) ≠ []) ∧
    (∃ s4, delattr (setattr (enterScope (setattr ([⟨none⟩] : PyState Nat) "K"
          (Val.user 1))) "K" (Val.user 2)) "K" = some s4 ∧
      getattr (setattr s4 "K" (Val.user 3)) "K" = some 3 ∧
      (∃ s6, delattr (setattr s4 "K" (Val.user 3)) "K" = some s6 ∧
        getattr s6 "K" = none ∧
        getattr (exitScope s6) "K" = some 1)) :=
  ⟨by decide, spec_c4 Nat [⟨none⟩] "K" 1 2 3 (by decide)⟩

/-- C5: two sibling scopes branching from the same parent chain, each
assigning its own K: each resolves its own value, never the value of the
other sibling, and the shared parent chain is untouched by either
assignment (resolution walks only the ancestry it is given, so a layer of
a non-ancestor scope is never consulted). -/
theorem spec_c5 (α : Type) (p : PyState α) (K : String) (va vb : α) (hne : va ≠ vb) :
    getattr (setattr (enterScope p) K (Val.user va)) K = some va ∧
    getattr (setattr (enterScope p) K (Val.user vb)) K = some vb ∧
    (setattr (enterScope p) K (Val.user va)).tail = p ∧
    (setattr (enterScope p) K (Val.user vb)).tail = p ∧
    getattr (setattr (enterScope p) K (Val.user va)) K ≠ some vb ∧
    getattr (setattr (enterScope p) K (Val.user vb)) K ≠ some va := by
  have ha : getattr (setattr (enterScope p) K (Val.user va)) K = some va := by
    rw [setattr_scope_head]
    simpa [valView] using getattr_head (⟨[(K, Val.user va)], []⟩ : Namespace α) [] p K
      (Val.user va) (by simp [alookup])
  have hb : getattr (setattr (enterScope p) K (Val.user vb)) K = some vb := by
    rw [setattr_scope_head]
    simpa [valView] using getattr_head (⟨[(K, Val.user vb)], []⟩ : Namespace α) [] p K
      (Val.user vb) (by simp [alookup])
  refine ⟨ha, hb, by rw [setattr_scope_head]; rfl, by rw [setattr_scope_head]; rfl, ?_, ?_⟩
  · rw [ha]
    simpa using hne
  · rw [hb]
    intro h
    exact hne (by simpa using h.symm)

/-- Witness for C5 at a concrete input. -/
theorem spec_c5_w :
    ((1 : Nat) ≠ 2) ∧
    (getattr (setattr (enterScope ([⟨none⟩] : PyState Nat)) "K" (Val.user 1)) "K"
        = some 1 ∧
     getattr (setattr (enterScope ([⟨none⟩] : PyState Nat)) "K" (Val.user 2)) "K"
        = some 2 ∧
     (setattr (enterScope ([⟨none⟩] : PyState Nat)) "K" (Val.user 1)).tail = [⟨none⟩] ∧
     (setattr (enterScope ([⟨none⟩] : PyState Nat)) "K" (Val.user 2)).tail = [⟨none⟩] ∧
     getattr (setattr (enterScope ([⟨none⟩] : PyState Nat)) "K" (Val.user 1)) "K"
        ≠ some 2 ∧
     getattr (setattr (enterScope ([⟨none⟩] : PyState Nat)) "K" (Val.user 2)) "K"
        ≠ some 1) :=
  ⟨by decide, spec_c5 Nat [⟨none⟩] "K" 1 2 (by decide)⟩

/-- C6: a decorated generator sets K=v in its own registered layer during
its first step and suspends; the driving scope then assigns w to its own K;
on the next resumption the generator still reads v, each step running with
the generator layer nearest, and after each step the driving chain is
exactly as before the step.  Likewise on the native engine, where each
step runs inside the persistent context copy of the handle. -/
theorem spec_c6 (α : Type) (d : PyState α) (K : String) (v w : α) (hd : d ≠ [])
    (n0 : NState α) (M : String) (gv gw : α) (hM : isReserved M = false)
    (hI : alookup M n0.instanceAttrs = none) :
    (let r1 := genStep (genHandle α) d (fun s => (setattr s K (Val.user v), ()))
     r1.2.1 = d ∧
     getattr (setattr r1.2.1 K (Val.user w)) K = some w ∧
     (genStep r1.1 (setattr r1.2.1 K (Val.user w)) (fun s => (s, getattr s K))).2.2
        = some v ∧
     (genStep r1.1 (setattr r1.2.1 K (Val.user w)) (fun s => (s, getattr s K))).2.1
        = setattr r1.2.1 K (Val.user w)) ∧
    (let r2 := nGenStep (nGenHandle n0) n0 (fun m => (nSetattr m M (Val.user gv), ()))
     (r2.2.1).ctx = n0.ctx ∧
     (nGenStep r2.1 (nSetattr r2.2.1 M (Val.user gw)) (fun m => (m, nGetattr m M))).2.2
        = some (Val.user gv) ∧
     (nGenStep r2.1 (nSetattr r2.2.1 M (Val.user gw)) (fun m => (m, nGetattr m M))).2.1
        = nSetattr r2.2.1 M (Val.user gw)) := by
  have hgen : genStep (genHandle α) d (fun s => (setattr s K (Val.user v), ()))
      = (⟨some [⟨[(K, Val.user v)], []⟩]⟩, d, ()) := by
    have hset := setattr_scope_head d K (Val.user v)
    simp only [genStep, genHandle, enterScope] at hset ⊢
    rw [hset]
    rfl
  constructor
  · rw [hgen]
    refine ⟨rfl, set_get_user d K w hd, ?_, rfl⟩
    · simp only [genStep]
      simpa [valView] using getattr_head (⟨[(K, Val.user v)], []⟩ : Namespace α) []
        (setattr d K (Val.user w)) K (Val.user v) (by simp [alookup])
  · refine ⟨rfl, ?_, ?_⟩
    · simp [nGenStep, nGenHandle, nSetattr, hM, nGetattr, hI, mem_regAdd, alookup_ainsert]
    · simp [nGenStep, nGenHandle, nSetattr, hM]

/-- Witness for C6 at a concrete input. -/
theorem spec_c6_w :
    (([⟨none⟩] : PyState Nat) ≠ []) ∧ (isReserved "m" = false) ∧
    (alookup "m" (NState.instanceAttrs (⟨[], [], []⟩ : NState Nat)) = none) ∧
    ((let r1 := genStep (genHandle Nat) [⟨none⟩] (fun s => (setattr s "K" (Val.user 2), ()))
      r1.2.1 = [⟨none⟩] ∧
      getattr (setattr r1.2.1 "K" (Val.user 5)) "K" = some 5 ∧
      (genStep r1.1 (setattr r1.2.1 "K" (Val.user 5)) (fun s => (s, getattr s "K"))).2.2
        = some 2 ∧
      (genStep r1.1 (setattr r1.2.1 "K" (Val.user 5)) (fun s => (s, getattr s "K"))).2.1
        = setattr r1.2.1 "K" (Val.user 5)) ∧
     (let r2 := nGenStep (nGenHandle (⟨[], [], []⟩ : NState Nat)) ⟨[], [], []⟩
        (fun m => (nSetattr m "m" (Val.user 2), ()))
      (r2.2.1).ctx = NState.ctx (⟨[], [], []⟩ : NState Nat) ∧
      (nGenStep r2.1 (nSetattr r2.2.1 "m" (Val.user 5)) (fun m => (m, nGetattr m "m"))).2.2
        = some (Val.user 2) ∧
      (nGenStep r2.1 (nSetattr r2.2.1 "m" (Val.user 5)) (fun m => (m, nGetattr m "m"))).2.1
        = nSetattr r2.2.1 "m" (Val.user 5))) :=
  ⟨by decide, by decide, by decide,
    spec_c6 Nat [⟨none⟩] "K" 2 5 (by decide) ⟨[], [], []⟩ "m" 2 5 (by decide) (by decide)⟩

/-- C7: when no binding layer exists anywhere in the ancestry (the walk
signals no-active-scope, consumed internally), set(K, v) still succeeds,
registering a fresh layer on the immediate frame and writing K=v there;
get(K) then returns v. -/
theorem spec_c7 (α : Type) (f : Frame α) (p : PyState α) (K : String) (v : α)
    (h : framesFindNs none (f :: p) = none) :
    setattr (f :: p) K (Val.user v)
      = ⟨some (⟨[(K, Val.user v)], []⟩ :: f.stack.getD [])⟩ :: p ∧
    getattr (setattr (f :: p) K (Val.user v)) K = some v := by
  refine ⟨setattr_noScope f p K (Val.user v) h, ?_⟩
  rw [setattr_noScope f p K (Val.user v) h]
  simpa [valView] using getattr_head (⟨[(K, Val.user v)], []⟩ : Namespace α)
    (f.stack.getD []) p K (Val.user v) (by simp [alookup])

/-- Witness for C7 at a concrete input. -/
theorem spec_c7_w :
    (framesFindNs none (((⟨none⟩ : Frame Nat)) :: ([] : PyState Nat)) = none) ∧
    (setattr ((⟨none⟩ : Frame Nat) :: ([] : PyState Nat)) "K" (Val.user 4)
        = ⟨some (⟨[("K", Val.user 4)], []⟩ :: (Frame.stack (⟨none⟩ : Frame Nat)).getD [])⟩
          :: ([] : PyState Nat) ∧
     getattr (setattr ((⟨none⟩ : Frame Nat) :: ([] : PyState Nat)) "K" (Val.user 4)) "K"
        = some 4) :=
  ⟨by decide, spec_c7 Nat ⟨none⟩ [] "K" 4 (by decide)⟩

/-- C8 counterexample: the claim asserts the selector values explicit and
native each yield a contract-satisfying engine.  At the concrete inputs:
the backend registry holds no entry for the key named explicit
(construction raises KeyError; the explicit ancestry-walking engine is
registered under the key named python), and construction with the native
key, or with no key at all (the default is native), fails as well, even
with a generous recursion budget, because the native initializer begins by
loading the reserved registry attribute it has not yet created, re-entering
the getattr fallback indefinitely. -/
theorem spec_c8_cex :
    constructContextLocal Nat (some "explicit") 1000 = none ∧
    constructContextLocal Nat (some "native") 1000 = none ∧
    constructContextLocal Nat none 1000 = none ∧
    constructContextLocal Nat (some "python") 1000 = some Built.python := by
  refine ⟨rfl, ?_, ?_, rfl⟩
  · exact constructNative_fails Nat (some "native") 1000 rfl
  · exact constructNative_fails Nat none 1000 rfl

/-- C8 amended: at construction the backend argument takes the values
python and native (not explicit, which fails with KeyError): python routes
to the explicit ancestry-walking engine, whose construction succeeds and
whose freshly constructed namespace satisfies the get/set/delete contract;
native, which is also the default, routes to the engine built on the host
context-snapshot primitive, but its initializer faults before completing
(its first statement subscripts the reserved registry attribute it has not
yet created, recursing through the getattr fallback past any recursion
budget), so no namespace is ever obtained from that engine. -/
theorem spec_c8_amended (α : Type) (K : String) (v : α) (fuel : Nat) :
    newContextLocal (some "python") = some Engine.python ∧
    newContextLocal (some "native") = some Engine.native ∧
    newContextLocal none = some Engine.native ∧
    constructContextLocal α (some "python") fuel = some Built.python ∧
    constructContextLocal α (some "native") fuel = none ∧
    constructContextLocal α none fuel = none ∧
    (getattr (setattr ([⟨none⟩] : PyState α) K (Val.user v)) K = some v ∧
     ∃ s2, delattr (setattr ([⟨none⟩] : PyState α) K (Val.user v)) K = some s2 ∧
        getattr s2 K = none) := by
  have hset : setattr ([⟨none⟩] : PyState α) K (Val.user v)
      = [⟨some [⟨[(K, Val.user v)], []⟩]⟩] := by
    simpa using setattr_noScope (⟨none⟩ : Frame α) [] K (Val.user v) (by simp [framesFindNs])
  refine ⟨rfl, rfl, rfl, rfl, constructNative_fails α (some "native") fuel rfl,
    constructNative_fails α none fuel rfl, ?_⟩
  rw [hset]
  refine ⟨?_, ?_⟩
  · simpa [valView] using getattr_head (⟨[(K, Val.user v)], []⟩ : Namespace α) [] [] K
      (Val.user v) (by simp [alookup])
  · refine ⟨_, delattr_fresh_head K v [], ?_⟩
    simpa [valView] using getattr_head (⟨[(K, Val.sentinel)], [K]⟩ : Namespace α) [] [] K
      Val.sentinel (by simp [alookup])

/-- The failing input for C9: in one frame, a is bound in an outer with
layer and b in a nested with layer of the same frame stack. -/
def pyC9state : PyState Nat :=
  setattr (enterWith (setattr pyRoot "a" (Val.user 1))) "b" (Val.user 2)

/-- C9, evaluated at the failing input: the name a is visible through the
un-shadowed outer layer, yet the enumeration only consults the top layer
of each registered frame stack and returns the name b alone, omitting a. -/
theorem spec_c9_eval :
    dirAttrs pyC9state = ["b"] ∧
    getattr pyC9state "a" = some 1 ∧
    "a" ∉ dirAttrs pyC9state := by
  decide

/-- C10: on the native backend, a name carrying the reserved engine
prefix is stored by assignment directly on the instance, not in any
context layer: the current context and the variable registry are
untouched, the value reads back from the instance dict, and an assignment
performed inside an isolated context run remains visible outside it
(shared across scopes, unlike every non-reserved name). -/
theorem spec_c10 (α : Type) (n : NState α) (M : String) (v : α)
    (hM : isReserved M = true) :
    (nSetattr n M (Val.user v)).ctx = n.ctx ∧
    (nSetattr n M (Val.user v)).registry = n.registry ∧
    alookup M (nSetattr n M (Val.user v)).instanceAttrs = some (Val.user v) ∧
    nGetattr (nSetattr n M (Val.user v)) M = some (Val.user v) ∧
    nGetattr (nRun n (fun m => (nSetattr m M (Val.user v), ()))).1 M = some (Val.user v) := by
  refine ⟨by simp [nSetattr, hM], by simp [nSetattr, hM], ?_, ?_, ?_⟩
  · simp [nSetattr, hM, alookup_ainsert]
  · simp [nSetattr, hM, nGetattr, alookup_ainsert]
  · simp [nRun, nSetattr, hM, nGetattr, alookup_ainsert]

/-- Witness for C10 at a concrete input. -/
theorem spec_c10_w :
    (isReserved "_et_x" = true) ∧
    ((nSetattr (⟨[], [], []⟩ : NState Nat) "_et_x" (Val.user 9)).ctx
        = NState.ctx (⟨[], [], []⟩ : NState Nat) ∧
     (nSetattr (⟨[], [], []⟩ : NState Nat) "_et_x" (Val.user 9)).registry
        = NState.registry (⟨[], [], []⟩ : NState Nat) ∧
     alookup "_et_x" (nSetattr (⟨[], [], []⟩ : NState Nat) "_et_x"
        (Val.user 9)).instanceAttrs = some (Val.user 9) ∧
     nGetattr (nSetattr (⟨[], [], []⟩ : NState Nat) "_et_x" (Val.user 9)) "_et_x"
        = some (Val.user 9) ∧
     nGetattr (nRun (⟨[], [], []⟩ : NState Nat)
        (fun m => (nSetattr m "_et_x" (Val.user 9), ()))).1 "_et_x"
        = some (Val.user 9)) :=
  ⟨by decide, spec_c10 Nat ⟨[], [], []⟩ "_et_x" 9 (by decide)⟩

end Extracontext
